import Mathlib

/-!
Verification of the CSD_MT_94 Modbus motor-controller library.

We shallowly embed the Python sources (`src/csd_mt_94/utils.py`,
`src/csd_mt_94/definitions.py`, `src/csd_mt_94/controller.py`) into Lean.
Python integers are arbitrary-precision, so they are modelled by `Int`
(or `Nat` where the Python value is a register word delivered by pymodbus,
which is always an unsigned 16-bit integer).  The Modbus transport is
modelled by a register file `Regs : Nat → Int` together with an explicit
trace of transport events; every controller method becomes a state-and-trace
transformer `PyM α`.  Python `ValueError` is modelled by the `valueError`
outcome, which propagates (the source's `except ModbusException` handlers
never catch it).
-/

namespace CsdMt94

/-! ### The word codec (`utils.py`) -/

/-- `merge_registers` from `utils.py`:
`(registers[1] << 16) + registers[0]`.
Python `x << 16` equals `x * 2 ^ 16` on arbitrary ints. -/
def merge_registers (registers : List Int) : Int :=
  (registers.getD 1 0) * 65536 + registers.getD 0 0

/-- `int32_to_uint16` from `utils.py`:
`value = value & 0xFFFFFFFF; lsb = value & 0xFFFF; msb = (value >> 16) & 0xFFFF`.
On a Python int, `x & 0xFFFFFFFF` is the nonnegative residue `x % 2^32`
(two's-complement masking), `x >> 16` on the nonnegative result is floor
division by `2^16`, and `& 0xFFFF` is `% 2^16`. -/
def int32_to_uint16 (value : Int) : Int × Int :=
  let value : Int := value % 4294967296
  (value % 65536, (value / 65536) % 65536)

/-- `to_bits_list` from `utils.py`: `[bool(int(i)) for i in f"{value:0{n_bits}b}"]`.
The binary format string of a nonnegative int is MSB-first, zero padded on the
left to `n_bits` characters (longer if the value needs more bits).  Callers
pass register words delivered by pymodbus, which are unsigned. -/
def to_bits_list (value : Nat) (n_bits : Nat := 16) : List Bool :=
  let n := max n_bits value.size
  (List.range n).map fun k => value.testBit (n - 1 - k)

/-! ### `definitions.py` -/

/-- The `STATUS_WORD` namedtuple from `definitions.py`, fields in source
declaration order. -/
structure STATUS_WORD where
  profile_ramp : Bool
  closed_loop_active : Bool
  following_error : Bool
  set_point_acknowledged : Bool
  int_limit_active : Bool
  target_reached : Bool
  remote : Bool
  manufact_spec : Bool
  warning : Bool
  switch_on_disabled : Bool
  quick_stop : Bool
  voltage_enabled : Bool
  fault : Bool
  operation_enabled : Bool
  switched_on : Bool
  ready_to_switch_on : Bool
deriving DecidableEq, Repr

/-- `STATUS_WORD._make(bits)`: fills the fields positionally from the list. -/
def STATUS_WORD.make (bits : List Bool) : STATUS_WORD :=
  ⟨bits.getD 0 false, bits.getD 1 false, bits.getD 2 false, bits.getD 3 false,
   bits.getD 4 false, bits.getD 5 false, bits.getD 6 false, bits.getD 7 false,
   bits.getD 8 false, bits.getD 9 false, bits.getD 10 false, bits.getD 11 false,
   bits.getD 12 false, bits.getD 13 false, bits.getD 14 false, bits.getD 15 false⟩

/-- The `CONTROL_WORD` dataclass from `definitions.py`, fields in source
declaration order. -/
structure CONTROL_WORD where
  user_specific_15 : Bool
  user_specific_14 : Bool
  user_specific_13 : Bool
  user_specific_12 : Bool
  user_specific_11 : Bool
  reserved_10 : Bool
  reserved_9 : Bool
  halt : Bool
  fault_reset : Bool
  relative_cs : Bool
  change_set_immediately : Bool
  new_set_point : Bool
  enable_op : Bool
  quick_stop : Bool
  enable_voltage : Bool
  switch_on : Bool
deriving DecidableEq, Repr

/-- `CONTROL_WORD(*bits)`: positional construction, declaration order. -/
def CONTROL_WORD.ofBits (bits : List Bool) : CONTROL_WORD :=
  ⟨bits.getD 0 false, bits.getD 1 false, bits.getD 2 false, bits.getD 3 false,
   bits.getD 4 false, bits.getD 5 false, bits.getD 6 false, bits.getD 7 false,
   bits.getD 8 false, bits.getD 9 false, bits.getD 10 false, bits.getD 11 false,
   bits.getD 12 false, bits.getD 13 false, bits.getD 14 false, bits.getD 15 false⟩

/-- `CONTROL_WORD.to_bits` from `definitions.py`: a dict from bit index to
field value, in insertion order `0, 1, …, 15`.  A Python dict preserves
insertion order, so we model it as an association list. -/
def CONTROL_WORD.to_bits (c : CONTROL_WORD) : List (Nat × Bool) :=
  [(0, c.switch_on), (1, c.enable_voltage), (2, c.quick_stop), (3, c.enable_op),
   (4, c.new_set_point), (5, c.change_set_immediately), (6, c.relative_cs),
   (7, c.fault_reset), (8, c.halt), (9, c.reserved_9), (10, c.reserved_10),
   (11, c.user_specific_11), (12, c.user_specific_12), (13, c.user_specific_13),
   (14, c.user_specific_14), (15, c.user_specific_15)]

/-! ### The transport model -/

/-- The Modbus register file: holding register address to stored value. -/
abbrev Regs := Nat → Int

/-- One transport call, as issued by the pymodbus client. -/
inductive Event where
  | readHolding (addr : Nat)
  | writeRegister (addr : Nat) (value : Int)
  | writeRegisters (addr : Nat) (values : List Int)
deriving DecidableEq, Repr

/-- Outcome of a Python call: normal return, or an uncaught `ValueError`. -/
inductive PyResult (α : Type) where
  | ok (val : α)
  | valueError (msg : String)
deriving DecidableEq, Repr

/-- A Python method over the drive: consumes the register file, produces an
outcome, the updated register file, and the trace of transport calls. -/
def PyM (α : Type) : Type := Regs → PyResult α × Regs × List Event

instance : Monad PyM where
  pure a := fun r => (.ok a, r, [])
  bind x f := fun r =>
    match x r with
    | (.ok a, r1, t1) =>
      match f a r1 with
      | (b, r2, t2) => (b, r2, t1 ++ t2)
    | (.valueError m, r1, t1) => (.valueError m, r1, t1)

/-- `client.read_holding_registers(addr)` (single register). -/
def readHolding (addr : Nat) : PyM Int :=
  fun r => (.ok (r addr), r, [.readHolding addr])

/-- `client.write_register(addr, value)`. -/
def writeReg (addr : Nat) (value : Int) : PyM Unit :=
  fun r => (.ok (), fun a => if a = addr then value else r a, [.writeRegister addr value])

/-- `client.write_registers(addr, [v0, v1])` (register pair). -/
def writeRegPair (addr : Nat) (v0 v1 : Int) : PyM Unit :=
  fun r =>
    (.ok (),
     fun a => if a = addr then v0 else if a = addr + 1 then v1 else r a,
     [.writeRegisters addr [v0, v1]])

/-- `raise ValueError(msg)`. -/
def raiseValueError {α : Type} (msg : String) : PyM α :=
  fun r => (.valueError msg, r, [])

/-! ### Controller methods (`controller.py`, synchronous variants)

The `try: … except ModbusException:` wrappers in the source catch only
transport exceptions; our transport model always succeeds, so they are
identity.  `ValueError` is not caught by them and propagates. -/

/-- The bit-manipulation line shared by `set_control_word_bit` and
`set_control_word_bits`:
`control_word ^= (-value ^ control_word) & (1 << bit)`.
Python bools convert to the ints 1/0 under negation, and Python int
bitwise operators are two's-complement on arbitrary-precision integers,
which is exactly `Int.xor`/`Int.land`. -/
def pySetBit (control_word : Int) (bit : Nat) (value : Bool) : Int :=
  Int.xor control_word
    (Int.land (Int.xor (-(value.toNat : Int)) control_word) ((1 <<< bit : Nat) : Int))

/-- `get_control_word`: reads register 1040, returns the raw word and the
`CONTROL_WORD` built positionally from the MSB-first bit list.  pymodbus
delivers register words as unsigned ints, so `toNat` is exact here. -/
def get_control_word : PyM (Int × CONTROL_WORD) := do
  let v ← readHolding 1040
  let bits := to_bits_list v.toNat
  pure (v, CONTROL_WORD.ofBits bits)

/-- `get_status_word`: reads register 1001, returns the raw word and
`STATUS_WORD._make(bits)` from the MSB-first bit list. -/
def get_status_word : PyM (Int × STATUS_WORD) := do
  let v ← readHolding 1001
  let bits := to_bits_list v.toNat
  pure (v, STATUS_WORD.make bits)

/-- The `CONTROL_WORD | int` union type of `set_control_word`. -/
inductive ControlArg where
  | ofInt (v : Int)
  | ofWord (c : CONTROL_WORD)

/-- Python `int(s, 2)`: parses a binary digit string, raising `ValueError`
(modelled by `none`) when the string is empty or contains a character other
than the digits 0 and 1. -/
def pyIntBase2 (s : String) : Option Nat :=
  if s.isEmpty then none
  else if s.toList.all fun ch => ch == '0' || ch == '1' then
    some (s.toList.foldl (fun acc ch => 2 * acc + (if ch == '1' then 1 else 0)) 0)
  else none

/-- `set_control_word`.  On the int path it writes the value to register
1040.  On the dataclass path the source runs
`value = int(''.join([str(int(i)) for i in bits]), 2)` where `bits` is the
dict `control.to_bits()`; iterating a Python dict yields its KEYS, so the
joined string is the decimal key string, which `int(…, 2)` rejects. -/
def set_control_word (control : ControlArg) : PyM Unit :=
  match control with
  | .ofInt v => writeReg 1040 v
  | .ofWord c =>
    let bits := c.to_bits
    match pyIntBase2 (String.join ((bits.map Prod.fst).map fun k => toString k)) with
    | some value => writeReg 1040 value
    | none => raiseValueError "invalid literal for int with base 2"

/-- `set_control_word_bit`: read-modify-write of one control-word bit. -/
def set_control_word_bit (bit : Nat) (value : Bool) : PyM Unit := do
  let control_word ← get_control_word
  let control_word := control_word.1
  let control_word := pySetBit control_word bit value
  set_control_word (.ofInt control_word)

/-- `set_control_word_bits`: one read, the XOR update folded over the dict
items in insertion order, one write. -/
def set_control_word_bits (bits : List (Nat × Bool)) : PyM Unit := do
  let control_word ← get_control_word
  let control_word := control_word.1
  let control_word := bits.foldl (fun w p => pySetBit w p.1 p.2) control_word
  set_control_word (.ofInt control_word)

/-- `set_target_position`: range check, then `int32_to_uint16` and a
register-pair write at 1042. -/
def set_target_position (position : Int) : PyM Unit :=
  if position < -2147483648 ∨ position > 2147483647 then
    raiseValueError "Invalid target position."
  else
    let p := int32_to_uint16 position
    writeRegPair 1042 p.1 p.2

/-- `switch_off` (synchronous variant): `self.client_sync.write_register(1040, 0)`. -/
def switch_off : PyM Unit :=
  writeReg 1040 0

/-- `halt`: pulse of control bit 8. -/
def halt : PyM Unit := do
  set_control_word_bit 8 true
  set_control_word_bit 8 false

/-- The `Literal["absolute", "relative"]` coordinate-system argument. -/
inductive CS where
  | absolute
  | relative
deriving DecidableEq, Repr

/-- The wait loop of `move`:
`while not target_reached: sw = get_status_word(); target_reached =
sw[1].target_reached; if time.time() > timeout: return`.
`fuel` is the number of poll iterations whose post-read clock check still
satisfies `time.time() <= timeout`; the iteration after that returns early.
Every iteration performs exactly one status-word read. -/
def move_poll : Nat → PyM Unit
  | 0 => do
    let _ ← get_status_word
    pure ()
  | fuel + 1 => do
    let sw ← get_status_word
    if sw.2.target_reached then pure () else move_poll fuel

/-- `move` (synchronous variant).  All `return` statements in the source are
bare, so the Python return value is `None` on every path; we give the result
type `Option Bool` (`none` = `None`) to record this. -/
def move (position : Int) (cs : CS) (change_setpoint_immediately : Bool)
    (wait_for_target_reached : Bool) (fuel : Nat) : PyM (Option Bool) := do
  set_control_word_bits [(4, false), (5, change_setpoint_immediately), (6, cs == CS.relative)]
  set_target_position position
  set_control_word_bit 4 true
  if wait_for_target_reached then do
    move_poll fuel
    pure none
  else
    pure none

/-! ### Run projections -/

/-- Outcome of a run. -/
def runVal {α : Type} (m : PyM α) (r : Regs) : PyResult α := (m r).1

/-- Final register file of a run. -/
def runRegs {α : Type} (m : PyM α) (r : Regs) : Regs := (m r).2.1

/-- Transport trace of a run. -/
def runTrace {α : Type} (m : PyM α) (r : Regs) : List Event := (m r).2.2

/-- The write events of a trace (everything but register reads). -/
def writesOf (t : List Event) : List Event :=
  t.filter fun e =>
    match e with
    | .readHolding _ => false
    | _ => true

/-- The `Nat`-level value of the XOR bit trick: set (`value = true`) or
clear (`value = false`) the given bit. -/
def setBitNat (w : Nat) (bit : Nat) (value : Bool) : Nat :=
  if value then w ||| (1 <<< bit) else Nat.ldiff w (1 <<< bit)

/-- The `Nat`-level value of folding the XOR bit trick over a dict. -/
def setBitsNat (l : List (Nat × Bool)) (w : Nat) : Nat :=
  l.foldl (fun w p => setBitNat w p.1 p.2) w

/-! ### Bit-level lemmas -/

theorem xor_land_self (w m : Nat) : w ^^^ (w &&& m) = Nat.ldiff w m := by
  apply Nat.eq_of_testBit_eq
  intro i
  rw [Nat.testBit_xor, Nat.testBit_land, Nat.testBit_ldiff]
  cases hw : w.testBit i <;> cases hm : m.testBit i <;> rfl

/-- Evaluation form of `Nat.ldiff`: `simp` can reduce `^^^` and `&&&` on
literals but has no simproc for `ldiff`. -/
theorem ldiff_eval (a b : Nat) : Nat.ldiff a b = a ^^^ (a &&& b) :=
  (xor_land_self a b).symm

theorem xor_ldiff_self (w m : Nat) : w ^^^ Nat.ldiff m w = w ||| m := by
  apply Nat.eq_of_testBit_eq
  intro i
  rw [Nat.testBit_xor, Nat.testBit_ldiff, Nat.testBit_lor]
  cases hw : w.testBit i <;> cases hm : m.testBit i <;> rfl

/-- On a nonnegative word, the Python XOR bit trick is exactly set/clear bit. -/
theorem pySetBit_natCast (w bit : Nat) (v : Bool) :
    pySetBit (w : Int) bit v = ((setBitNat w bit v : Nat) : Int) := by
  cases v with
  | false =>
    have h1 : Int.xor (-(Bool.toNat false : Nat) : Int) (w : Int) = ((0 ^^^ w : Nat) : Int) := rfl
    unfold pySetBit
    rw [h1, Nat.zero_xor]
    have h2 : Int.land (w : Int) ((1 <<< bit : Nat) : Int)
        = ((w &&& (1 <<< bit) : Nat) : Int) := rfl
    rw [h2]
    have h3 : Int.xor (w : Int) ((w &&& (1 <<< bit) : Nat) : Int)
        = ((w ^^^ (w &&& (1 <<< bit)) : Nat) : Int) := rfl
    rw [h3, xor_land_self]
    rfl
  | true =>
    have h1 : Int.xor (-(Bool.toNat true : Nat) : Int) (w : Int) = Int.negSucc (0 ^^^ w) := rfl
    unfold pySetBit
    rw [h1, Nat.zero_xor]
    have h2 : Int.land (Int.negSucc w) ((1 <<< bit : Nat) : Int)
        = ((Nat.ldiff (1 <<< bit) w : Nat) : Int) := rfl
    rw [h2]
    have h3 : Int.xor (w : Int) ((Nat.ldiff (1 <<< bit) w : Nat) : Int)
        = ((w ^^^ Nat.ldiff (1 <<< bit) w : Nat) : Int) := rfl
    rw [h3, xor_ldiff_self]
    rfl

theorem testBit_setBitNat (w bit : Nat) (v : Bool) (j : Nat) :
    (setBitNat w bit v).testBit j = if j = bit then v else w.testBit j := by
  by_cases h : j = bit
  · subst h
    cases v <;>
      simp [setBitNat, Nat.testBit_lor, Nat.testBit_ldiff, Nat.one_shiftLeft,
        Nat.testBit_two_pow_self]
  · cases v <;>
      simp [setBitNat, Nat.testBit_lor, Nat.testBit_ldiff, Nat.one_shiftLeft,
        Nat.testBit_two_pow_of_ne (Ne.symm h), h]

theorem setBitsNat_natCast (l : List (Nat × Bool)) (w : Nat) :
    l.foldl (fun w p => pySetBit w p.1 p.2) (w : Int) = ((setBitsNat l w : Nat) : Int) := by
  induction l generalizing w with
  | nil => rfl
  | cons p t ih =>
    rw [List.foldl_cons, pySetBit_natCast, ih]
    rfl

theorem testBit_setBitsNat_not_mem (l : List (Nat × Bool)) (w j : Nat)
    (h : j ∉ l.map Prod.fst) : (setBitsNat l w).testBit j = w.testBit j := by
  induction l generalizing w with
  | nil => rfl
  | cons p t ih =>
    simp only [List.map_cons, List.mem_cons, not_or] at h
    show (setBitsNat t (setBitNat w p.1 p.2)).testBit j = _
    rw [ih _ h.2, testBit_setBitNat, if_neg h.1]

theorem testBit_setBitsNat_mem (l : List (Nat × Bool)) (w i : Nat) (v : Bool)
    (hnd : (l.map Prod.fst).Nodup) (hmem : (i, v) ∈ l) :
    (setBitsNat l w).testBit i = v := by
  induction l generalizing w with
  | nil => cases hmem
  | cons p t ih =>
    rw [List.map_cons, List.nodup_cons] at hnd
    rcases List.mem_cons.mp hmem with h | h
    · show (setBitsNat t (setBitNat w p.1 p.2)).testBit i = v
      rw [testBit_setBitsNat_not_mem t _ i (by rw [← h] at hnd; exact hnd.1)]
      rw [← h, testBit_setBitNat, if_pos rfl]
    · exact ih (setBitNat w p.1 p.2) hnd.2 h

/-! ### Run equations for the embedded methods -/

theorem run_bind_ok {α β : Type} (x : PyM α) (f : α → PyM β) (r : Regs)
    (a : α) (r1 : Regs) (t1 : List Event) (b : PyResult β) (r2 : Regs) (t2 : List Event)
    (hx : x r = (.ok a, r1, t1)) (hf : f a r1 = (b, r2, t2)) :
    (x >>= f) r = (b, r2, t1 ++ t2) := by
  have h0 : (x >>= f) r =
      (match x r with
       | (.ok a, r1, t1) =>
         (match f a r1 with
          | (b, r2, t2) => (b, r2, t1 ++ t2))
       | (.valueError m, r1, t1) => (.valueError m, r1, t1)) := rfl
  rw [h0]
  simp only [hx, hf]

theorem run_bind_err {α β : Type} (x : PyM α) (f : α → PyM β) (r : Regs)
    (m : String) (r1 : Regs) (t1 : List Event)
    (hx : x r = (.valueError m, r1, t1)) :
    (x >>= f) r = (.valueError m, r1, t1) := by
  have h0 : (x >>= f) r =
      (match x r with
       | (.ok a, r1, t1) =>
         (match f a r1 with
          | (b, r2, t2) => (b, r2, t1 ++ t2))
       | (.valueError m, r1, t1) => (.valueError m, r1, t1)) := rfl
  rw [h0]
  simp only [hx]

theorem get_control_word_run (r : Regs) :
    get_control_word r =
      (.ok (r 1040, CONTROL_WORD.ofBits (to_bits_list (r 1040).toNat)), r,
       [.readHolding 1040]) := rfl

theorem get_status_word_run (r : Regs) :
    get_status_word r =
      (.ok (r 1001, STATUS_WORD.make (to_bits_list (r 1001).toNat)), r,
       [.readHolding 1001]) := rfl

theorem set_control_word_bit_run (bit : Nat) (value : Bool) (r : Regs) :
    set_control_word_bit bit value r =
      (.ok (), fun a => if a = 1040 then pySetBit (r 1040) bit value else r a,
       [.readHolding 1040, .writeRegister 1040 (pySetBit (r 1040) bit value)]) := rfl

theorem set_control_word_bits_run (bits : List (Nat × Bool)) (r : Regs) :
    set_control_word_bits bits r =
      (.ok (),
       fun a => if a = 1040 then bits.foldl (fun w p => pySetBit w p.1 p.2) (r 1040) else r a,
       [.readHolding 1040,
        .writeRegister 1040 (bits.foldl (fun w p => pySetBit w p.1 p.2) (r 1040))]) := rfl

theorem switch_off_run (r : Regs) :
    switch_off r =
      (.ok (), fun a => if a = 1040 then 0 else r a, [.writeRegister 1040 0]) := rfl

theorem set_target_position_run_ok (position : Int)
    (h1 : -2147483648 ≤ position) (h2 : position ≤ 2147483647) (r : Regs) :
    set_target_position position r =
      (.ok (),
       fun a => if a = 1042 then (int32_to_uint16 position).1
                else if a = 1043 then (int32_to_uint16 position).2 else r a,
       [.writeRegisters 1042 [(int32_to_uint16 position).1, (int32_to_uint16 position).2]]) := by
  unfold set_target_position
  rw [if_neg (by omega)]
  rfl

theorem set_target_position_run_err (position : Int)
    (h : position < -2147483648 ∨ position > 2147483647) (r : Regs) :
    set_target_position position r = (.valueError "Invalid target position.", r, []) := by
  unfold set_target_position
  rw [if_pos h]
  rfl

theorem writesOf_append (a b : List Event) :
    writesOf (a ++ b) = writesOf a ++ writesOf b :=
  List.filter_append _ _

theorem writesOf_cons_read (addr : Nat) (t : List Event) :
    writesOf (.readHolding addr :: t) = writesOf t := rfl

theorem writesOf_cons_writeReg (addr : Nat) (v : Int) (t : List Event) :
    writesOf (.writeRegister addr v :: t) = .writeRegister addr v :: writesOf t := rfl

theorem writesOf_cons_writeRegs (addr : Nat) (vs : List Int) (t : List Event) :
    writesOf (.writeRegisters addr vs :: t) = .writeRegisters addr vs :: writesOf t := rfl

theorem writesOf_nil : writesOf [] = [] := rfl

theorem runTrace_pure {α : Type} (a : α) (s : Regs) : runTrace (pure a) s = [] := rfl

theorem runTrace_eq {α : Type} (m : PyM α) (r : Regs) : runTrace m r = (m r).2.2 := rfl

theorem runVal_seq {α β : Type} (x : PyM α) (y : PyM β) (r : Regs)
    (a : α) (r1 : Regs) (t1 : List Event) (hx : x r = (.ok a, r1, t1)) :
    runVal (x >>= fun _ => y) r = runVal y r1 := by
  rcases hy : y r1 with ⟨b, r2, t2⟩
  unfold runVal
  rw [run_bind_ok _ _ r a r1 t1 b r2 t2 hx hy, hy]

theorem runTrace_seq {α β : Type} (x : PyM α) (y : PyM β) (r : Regs)
    (a : α) (r1 : Regs) (t1 : List Event) (hx : x r = (.ok a, r1, t1)) :
    runTrace (x >>= fun _ => y) r = t1 ++ runTrace y r1 := by
  rcases hy : y r1 with ⟨b, r2, t2⟩
  unfold runTrace
  rw [run_bind_ok _ _ r a r1 t1 b r2 t2 hx hy, hy]

theorem runRegs_seq {α β : Type} (x : PyM α) (y : PyM β) (r : Regs)
    (a : α) (r1 : Regs) (t1 : List Event) (hx : x r = (.ok a, r1, t1)) :
    runRegs (x >>= fun _ => y) r = runRegs y r1 := by
  rcases hy : y r1 with ⟨b, r2, t2⟩
  unfold runRegs
  rw [run_bind_ok _ _ r a r1 t1 b r2 t2 hx hy, hy]

theorem to_bits_list_eq (v : Nat) (hv : v < 65536) :
    to_bits_list v = (List.range 16).map fun k => v.testBit (15 - k) := by
  have hsize : v.size ≤ 16 := Nat.size_le.mpr hv
  have hmax : max 16 v.size = 16 := by omega
  unfold to_bits_list
  rw [hmax]

theorem to_bits_list_getD (v : Nat) (hv : v < 65536) (k : Nat) (hk : k < 16) :
    (to_bits_list v).getD k false = v.testBit (15 - k) := by
  rw [to_bits_list_eq v hv, List.getD_eq_getElem _ _ (by simpa using hk)]
  simp

/-- Decoding a 16-bit status word puts raw bit 10 in the `target_reached`
field: the namedtuple fields are filled MSB-first. -/
theorem make_target_reached (v : Nat) (hv : v < 65536) :
    (STATUS_WORD.make (to_bits_list v)).target_reached = v.testBit 10 := by
  show (to_bits_list v).getD 5 false = v.testBit 10
  rw [to_bits_list_getD v hv 5 (by omega)]

/-! ### The wait loop of `move` -/

theorem move_poll_succ_run (fuel : Nat) (r : Regs) :
    move_poll (fuel + 1) r =
      if (STATUS_WORD.make (to_bits_list (r 1001).toNat)).target_reached
      then (.ok (), r, [Event.readHolding 1001])
      else ((move_poll fuel r).1, (move_poll fuel r).2.1,
            Event.readHolding 1001 :: (move_poll fuel r).2.2) := by
  have hshow : move_poll (fuel + 1) r =
      (get_status_word >>= fun sw =>
        if sw.2.target_reached then pure () else move_poll fuel) r := rfl
  by_cases h : (STATUS_WORD.make (to_bits_list (r 1001).toNat)).target_reached
  · rw [hshow, if_pos h]
    refine run_bind_ok _ _ r _ r [Event.readHolding 1001] _ _ _ (get_status_word_run r) ?_
    show (if (STATUS_WORD.make (to_bits_list (r 1001).toNat)).target_reached
        then pure () else move_poll fuel) r = ((PyResult.ok ()), r, ([] : List Event))
    rw [if_pos h]
    rfl
  · rw [hshow, if_neg h]
    rcases hm : move_poll fuel r with ⟨b, r2, t2⟩
    have hf : (if (STATUS_WORD.make (to_bits_list (r 1001).toNat)).target_reached
        then pure () else move_poll fuel) r = (b, r2, t2) := by
      rw [if_neg h]
      exact hm
    rw [run_bind_ok _ _ r _ r [Event.readHolding 1001] b r2 t2 (get_status_word_run r) hf]
    rfl

theorem move_poll_ok (fuel : Nat) (r : Regs) : (move_poll fuel r).1 = PyResult.ok () := by
  induction fuel with
  | zero => rfl
  | succ f ih =>
    rw [move_poll_succ_run f r]
    by_cases h : (STATUS_WORD.make (to_bits_list (r 1001).toNat)).target_reached
    · rw [if_pos h]
    · rw [if_neg h]
      exact ih

theorem move_poll_regs (fuel : Nat) (r : Regs) : (move_poll fuel r).2.1 = r := by
  induction fuel with
  | zero => rfl
  | succ f ih =>
    rw [move_poll_succ_run f r]
    by_cases h : (STATUS_WORD.make (to_bits_list (r 1001).toNat)).target_reached
    · rw [if_pos h]
    · rw [if_neg h]
      exact ih

theorem move_poll_reads (fuel : Nat) (r : Regs) :
    ∀ e ∈ (move_poll fuel r).2.2, e = Event.readHolding 1001 := by
  induction fuel with
  | zero =>
    intro e he
    have ht : (move_poll 0 r).2.2 = [Event.readHolding 1001] := rfl
    rw [ht] at he
    simpa using he
  | succ f ih =>
    intro e he
    rw [move_poll_succ_run f r] at he
    by_cases h : (STATUS_WORD.make (to_bits_list (r 1001).toNat)).target_reached
    · rw [if_pos h] at he
      simpa using he
    · rw [if_neg h] at he
      rcases List.mem_cons.mp he with h1 | h1
      · exact h1
      · exact ih e h1

theorem move_poll_writesOf (fuel : Nat) (r : Regs) :
    writesOf ((move_poll fuel r).2.2) = [] := by
  induction fuel with
  | zero => rfl
  | succ f ih =>
    rw [move_poll_succ_run f r]
    by_cases h : (STATUS_WORD.make (to_bits_list (r 1001).toNat)).target_reached
    · rw [if_pos h]
      rfl
    · rw [if_neg h]
      show writesOf (Event.readHolding 1001 :: (move_poll f r).2.2) = []
      rw [writesOf_cons_read]
      exact ih

theorem move_poll_trace_length (fuel : Nat) (r : Regs) :
    1 ≤ ((move_poll fuel r).2.2).length := by
  induction fuel with
  | zero =>
    have ht : (move_poll 0 r).2.2 = [Event.readHolding 1001] := rfl
    rw [ht]
    simp
  | succ f ih =>
    rw [move_poll_succ_run f r]
    by_cases h : (STATUS_WORD.make (to_bits_list (r 1001).toNat)).target_reached
    · rw [if_pos h]
      simp
    · rw [if_neg h]
      simp

/-- The tail of `move` when `wait_for_target_reached` is true always
returns `None` (the loop outcome is not reported). -/
theorem runVal_poll_tail (fuel : Nat) (s : Regs) :
    runVal (move_poll fuel >>= fun _ => pure (none : Option Bool)) s = PyResult.ok none := by
  rcases hp : move_poll fuel s with ⟨b, r4, t4⟩
  have hb : b = PyResult.ok () := by
    have h := move_poll_ok fuel s
    rw [hp] at h
    exact h
  subst hb
  rw [runVal_seq _ _ s () r4 t4 hp]
  rfl

/-- The tail of `move` when waiting issues no writes. -/
theorem writesOf_poll_tail (fuel : Nat) (s : Regs) :
    writesOf (runTrace (move_poll fuel >>= fun _ => pure (none : Option Bool)) s) = [] := by
  rcases hp : move_poll fuel s with ⟨b, r4, t4⟩
  have hb : b = PyResult.ok () := by
    have h := move_poll_ok fuel s
    rw [hp] at h
    exact h
  subst hb
  rw [runTrace_seq _ _ s () r4 t4 hp, writesOf_append]
  have ht4 : writesOf t4 = [] := by
    have h := move_poll_writesOf fuel s
    rw [hp] at h
    exact h
  rw [ht4]
  rfl

/-! ### Claim C10 -/

set_option maxHeartbeats 1600000 in
/-- C10: for every `CONTROL_WORD` dataclass value `c`, `set_control_word(c)`
raises an uncaught `ValueError` before any register write: iterating the
`to_bits()` dict yields its keys, the joined string is
`"0123456789101112131415"`, and parsing it as base 2 fails for every `c`;
the transport is untouched (no event, registers unchanged), so only the
integer-argument path of `set_control_word` can ever write the control
word. -/
theorem c10_set_control_word_dataclass_raises (c : CONTROL_WORD) (r : Regs) :
    runVal (set_control_word (.ofWord c)) r
      = PyResult.valueError "invalid literal for int with base 2" ∧
    runTrace (set_control_word (.ofWord c)) r = [] ∧
    runRegs (set_control_word (.ofWord c)) r = r ∧
    String.join (((CONTROL_WORD.to_bits c).map Prod.fst).map fun k => toString k)
      = "0123456789101112131415" ∧
    pyIntBase2 "0123456789101112131415" = none := by
  have hkeys : (CONTROL_WORD.to_bits c).map Prod.fst
      = [0, 1, 2, 3, 4, 5, 6, 7, 8, 9, 10, 11, 12, 13, 14, 15] := rfl
  have hstr : String.join
      (([0, 1, 2, 3, 4, 5, 6, 7, 8, 9, 10, 11, 12, 13, 14, 15] : List Nat).map
        fun k => toString k) = "0123456789101112131415" := rfl
  have hparse : pyIntBase2 "0123456789101112131415" = none := rfl
  have hs : pyIntBase2
      (String.join (((CONTROL_WORD.to_bits c).map Prod.fst).map fun k => toString k))
      = none := by
    rw [hkeys, hstr, hparse]
  have hrun : set_control_word (.ofWord c) r
      = raiseValueError "invalid literal for int with base 2" r := by
    simp only [set_control_word]
    rw [hs]
  refine ⟨?_, ?_, ?_, ?_, hparse⟩
  · unfold runVal
    rw [hrun]
    rfl
  · unfold runTrace
    rw [hrun]
    rfl
  · unfold runRegs
    rw [hrun]
    rfl
  · rw [hkeys, hstr]

/-! ### Claim C2 -/

/-- C2 counterexample: encoding the in-range signed 32-bit integer `-1`
with `int32_to_uint16` and decoding the register pair with
`merge_registers` yields `4294967295`, not `-1`: the read path never
sign-extends, so the round trip fails for negative values. -/
theorem c2_counterexample :
    merge_registers [(int32_to_uint16 (-1)).1, (int32_to_uint16 (-1)).2] = 4294967295 ∧
    (4294967295 : Int) ≠ (-1 : Int) :=
  ⟨by decide, by decide⟩

/-- C2 amended: for every signed 32-bit integer `x` in
`[-2^31, 2^31-1]`, decoding the register pair produced by encoding `x`
yields `x % 2^32` — which equals `x` exactly when `0 ≤ x`, and `x + 2^32`
(a nonnegative value, not `x`) when `x` is negative. -/
theorem c2_roundtrip_mod (x : Int)
    (h1 : -2147483648 ≤ x) (h2 : x ≤ 2147483647) :
    merge_registers [(int32_to_uint16 x).1, (int32_to_uint16 x).2] = x % 4294967296 ∧
    (0 ≤ x → merge_registers [(int32_to_uint16 x).1, (int32_to_uint16 x).2] = x) := by
  simp only [merge_registers, int32_to_uint16, List.getD_cons_zero, List.getD_cons_succ]
  constructor
  · omega
  · intro h0
    omega

/-- Witness for C2 amended at `x = -5`: the hypotheses hold and the
round trip evaluates to `2^32 - 5`. -/
theorem c2_roundtrip_mod_witness :
    merge_registers [(int32_to_uint16 (-5)).1, (int32_to_uint16 (-5)).2]
        = (-5 : Int) % 4294967296 ∧
    merge_registers [(int32_to_uint16 (-5)).1, (int32_to_uint16 (-5)).2] = 4294967291 :=
  ⟨(c2_roundtrip_mod (-5) (by decide) (by decide)).1, by decide⟩

/-! ### Claim C5 -/

/-- C5 counterexample: with prior control word `3` (bits 0 and 1 set),
`switch_off` issues the single write `write_register(1040, 0)` with no
prior read; bit 1, which the claim says keeps its last-read value, is
cleared. -/
theorem c5_counterexample :
    runTrace switch_off (fun _ => 3) = [Event.writeRegister 1040 0] ∧
    runRegs switch_off (fun _ => 3) 1040 = 0 ∧
    (3 : Int).toNat.testBit 1 = true ∧
    (0 : Int).toNat.testBit 1 = false :=
  ⟨rfl, rfl, by decide, by decide⟩

/-- C5 amended: `switch_off` performs a single write of the constant `0`
to the control-word register, with no read at all: bit 0 becomes false,
but every other bit is cleared as well rather than keeping its prior
value; registers other than 1040 are untouched. -/
theorem c5_switch_off_writes_zero (r : Regs) :
    runTrace switch_off r = [Event.writeRegister 1040 0] ∧
    runRegs switch_off r 1040 = 0 ∧
    (∀ a, a ≠ 1040 → runRegs switch_off r a = r a) := by
  refine ⟨rfl, rfl, fun a ha => ?_⟩
  show (if a = 1040 then 0 else r a) = r a
  rw [if_neg ha]

/-- Witness for C5 amended at the register file constantly `7`. -/
theorem c5_switch_off_writes_zero_witness :
    runTrace switch_off (fun _ => 7) = [Event.writeRegister 1040 0] ∧
    runRegs switch_off (fun _ => 7) 1040 = 0 ∧
    runRegs switch_off (fun _ => 7) 1041 = 7 :=
  ⟨(c5_switch_off_writes_zero (fun _ => 7)).1,
   (c5_switch_off_writes_zero (fun _ => 7)).2.1,
   (c5_switch_off_writes_zero (fun _ => 7)).2.2 1041 (by decide)⟩

/-! ### Claim C7 -/

/-- C7 counterexample: with initial control word `1` (bit 0 set),
`set_control_word_bit(0, true)` then `set_control_word_bit(0, false)`
leaves the control word at `0`: bit 0 is not restored to its original
value `true`. -/
theorem c7_counterexample :
    runRegs (set_control_word_bit 0 true >>= fun _ => set_control_word_bit 0 false)
        (fun _ => 1) 1040 = 0 ∧
    (1 : Int).toNat.testBit 0 = true ∧
    (0 : Int).toNat.testBit 0 = false := by
  refine ⟨?_, by decide, by decide⟩
  have h : runRegs (set_control_word_bit 0 true >>= fun _ => set_control_word_bit 0 false)
      (fun _ => 1) 1040 = pySetBit (pySetBit ((1 : Nat) : Int) 0 true) 0 false := rfl
  rw [h, pySetBit_natCast, pySetBit_natCast]
  simp only [setBitNat, ldiff_eval]
  norm_num

/-- C7 amended: for every initial 16-bit control word and every bit index
`i` in `[0, 15]`, `set_control_word_bit(i, true)` followed by
`set_control_word_bit(i, false)` leaves every bit other than `i` exactly
as before and leaves bit `i` cleared — so the original bit `i` is
restored precisely when it was `0`. -/
theorem c7_set_then_clear_bit (r : Regs) (i : Nat)
    (h0 : 0 ≤ r 1040) (h1 : r 1040 < 65536) (hi : i ≤ 15) :
    (∀ j, j ≠ i →
      (runRegs (set_control_word_bit i true >>= fun _ => set_control_word_bit i false)
          r 1040).toNat.testBit j
        = (r 1040).toNat.testBit j) ∧
    (runRegs (set_control_word_bit i true >>= fun _ => set_control_word_bit i false)
        r 1040).toNat.testBit i = false := by
  have hreg : runRegs (set_control_word_bit i true >>= fun _ => set_control_word_bit i false)
      r 1040 = pySetBit (pySetBit (r 1040) i true) i false := rfl
  have hw : ((r 1040).toNat : Int) = r 1040 := Int.toNat_of_nonneg h0
  have hvalue : pySetBit (pySetBit (r 1040) i true) i false
      = ((setBitNat (setBitNat (r 1040).toNat i true) i false : Nat) : Int) := by
    conv_lhs => rw [← hw]
    rw [pySetBit_natCast, pySetBit_natCast]
  rw [hreg, hvalue]
  constructor
  · intro j hj
    rw [Int.toNat_natCast, testBit_setBitNat, if_neg hj, testBit_setBitNat, if_neg hj]
  · rw [Int.toNat_natCast, testBit_setBitNat, if_pos rfl]

/-- Witness for C7 amended at control word `33793` (bits 0, 10, 15), bit `5`:
the word is restored exactly because its bit 5 was `0`. -/
theorem c7_set_then_clear_bit_witness :
    ((runRegs (set_control_word_bit 5 true >>= fun _ => set_control_word_bit 5 false)
        (fun _ => 33793) 1040).toNat.testBit 0
      = ((33793 : Int)).toNat.testBit 0) ∧
    (runRegs (set_control_word_bit 5 true >>= fun _ => set_control_word_bit 5 false)
        (fun _ => 33793) 1040).toNat.testBit 5 = false ∧
    runRegs (set_control_word_bit 5 true >>= fun _ => set_control_word_bit 5 false)
        (fun _ => 33793) 1040 = 33793 := by
  refine ⟨(c7_set_then_clear_bit (fun _ => 33793) 5 (by decide) (by decide) (by decide)).1 0
      (by decide),
    (c7_set_then_clear_bit (fun _ => 33793) 5 (by decide) (by decide) (by decide)).2, ?_⟩
  have h : runRegs (set_control_word_bit 5 true >>= fun _ => set_control_word_bit 5 false)
      (fun _ => 33793) 1040 = pySetBit (pySetBit ((33793 : Nat) : Int) 5 true) 5 false := rfl
  rw [h, pySetBit_natCast, pySetBit_natCast]
  simp only [setBitNat, ldiff_eval]
  norm_cast

/-! ### Claim C8 -/

/-- C8: `set_control_word_bits(bits)` performs exactly one control-word
read and one control-word write (trace `[read 1040, write 1040 w]`), and
the written word `w` equals the requested value at every index in `bits`
and agrees with the read word at every index not in `bits`.  `bits` is a
Python dict, so its keys are distinct. -/
theorem c8_set_control_word_bits_one_rmw (bits : List (Nat × Bool)) (r : Regs)
    (hnd : (bits.map Prod.fst).Nodup) (h0 : 0 ≤ r 1040) :
    runTrace (set_control_word_bits bits) r =
      [Event.readHolding 1040,
       Event.writeRegister 1040 ((setBitsNat bits (r 1040).toNat : Nat) : Int)] ∧
    (∀ i v, (i, v) ∈ bits → (setBitsNat bits (r 1040).toNat).testBit i = v) ∧
    (∀ j, j ∉ bits.map Prod.fst →
      (setBitsNat bits (r 1040).toNat).testBit j = (r 1040).toNat.testBit j) := by
  have hw : ((r 1040).toNat : Int) = r 1040 := Int.toNat_of_nonneg h0
  refine ⟨?_, fun i v hm => testBit_setBitsNat_mem bits _ i v hnd hm,
    fun j hj => testBit_setBitsNat_not_mem bits _ j hj⟩
  have ht : runTrace (set_control_word_bits bits) r =
      [Event.readHolding 1040,
       Event.writeRegister 1040 (bits.foldl (fun w p => pySetBit w p.1 p.2) (r 1040))] := rfl
  rw [ht]
  conv_lhs => rw [← hw, setBitsNat_natCast]

/-- Witness for C8 at `bits = {4: true, 5: false}` and control word `33`:
the written word evaluates to `17`. -/
theorem c8_set_control_word_bits_one_rmw_witness :
    (runTrace (set_control_word_bits [(4, true), (5, false)]) (fun _ => 33) =
      [Event.readHolding 1040,
       Event.writeRegister 1040
         ((setBitsNat [(4, true), (5, false)] ((33 : Int)).toNat : Nat) : Int)]) ∧
    setBitsNat [(4, true), (5, false)] ((33 : Int)).toNat = 17 :=
  ⟨(c8_set_control_word_bits_one_rmw [(4, true), (5, false)] (fun _ => 33)
      (by decide) (by decide)).1,
   by simp only [setBitsNat, List.foldl, setBitNat, ldiff_eval]; decide⟩

/-! ### Claim C9 -/

/-- C9: `halt` performs exactly two control-word read-modify-writes —
setting bit 8 to true, then setting bit 8 to false — and writes no target
register: the target-position pair (1042, 1043) and target-velocity pair
(1048, 1049) hold the same values after `halt` as before it. -/
theorem c9_halt_pulses_bit8 (r : Regs) (h0 : 0 ≤ r 1040) (h1 : r 1040 < 65536) :
    runTrace halt r =
      [Event.readHolding 1040,
       Event.writeRegister 1040 ((setBitNat (r 1040).toNat 8 true : Nat) : Int),
       Event.readHolding 1040,
       Event.writeRegister 1040
         ((setBitNat (setBitNat (r 1040).toNat 8 true) 8 false : Nat) : Int)] ∧
    (setBitNat (r 1040).toNat 8 true).testBit 8 = true ∧
    (setBitNat (setBitNat (r 1040).toNat 8 true) 8 false).testBit 8 = false ∧
    (∀ j, j ≠ 8 →
      (setBitNat (setBitNat (r 1040).toNat 8 true) 8 false).testBit j
        = (r 1040).toNat.testBit j) ∧
    runRegs halt r 1042 = r 1042 ∧ runRegs halt r 1043 = r 1043 ∧
    runRegs halt r 1048 = r 1048 ∧ runRegs halt r 1049 = r 1049 := by
  have hw : ((r 1040).toNat : Int) = r 1040 := Int.toNat_of_nonneg h0
  have hp1 : pySetBit (r 1040) 8 true = ((setBitNat (r 1040).toNat 8 true : Nat) : Int) := by
    conv_lhs => rw [← hw]
    exact pySetBit_natCast _ _ _
  have hp2 : pySetBit (pySetBit (r 1040) 8 true) 8 false
      = ((setBitNat (setBitNat (r 1040).toNat 8 true) 8 false : Nat) : Int) := by
    rw [hp1, pySetBit_natCast]
  have ht : runTrace halt r =
      [Event.readHolding 1040,
       Event.writeRegister 1040 (pySetBit (r 1040) 8 true),
       Event.readHolding 1040,
       Event.writeRegister 1040 (pySetBit (pySetBit (r 1040) 8 true) 8 false)] := rfl
  refine ⟨by rw [ht, hp2, hp1], ?_, ?_, ?_, rfl, rfl, rfl, rfl⟩
  · rw [testBit_setBitNat, if_pos rfl]
  · rw [testBit_setBitNat, if_pos rfl]
  · intro j hj
    rw [testBit_setBitNat, if_neg hj, testBit_setBitNat, if_neg hj]

/-- Witness for C9 at the register file constantly `5`: the pulsed words
evaluate to `261` and back to `5`, and register 1042 is untouched. -/
theorem c9_halt_pulses_bit8_witness :
    (runTrace halt (fun _ => 5) =
      [Event.readHolding 1040,
       Event.writeRegister 1040 ((setBitNat ((5 : Int)).toNat 8 true : Nat) : Int),
       Event.readHolding 1040,
       Event.writeRegister 1040
         ((setBitNat (setBitNat ((5 : Int)).toNat 8 true) 8 false : Nat) : Int)]) ∧
    setBitNat ((5 : Int)).toNat 8 true = 261 ∧
    setBitNat (setBitNat ((5 : Int)).toNat 8 true) 8 false = 5 ∧
    runRegs halt (fun _ => 5) 1042 = 5 :=
  ⟨(c9_halt_pulses_bit8 (fun _ => 5) (by decide) (by decide)).1,
   by simp only [setBitNat, ldiff_eval]; decide,
   by simp only [setBitNat, ldiff_eval]; decide,
   (c9_halt_pulses_bit8 (fun _ => 5) (by decide) (by decide)).2.2.2.2.1⟩

/-! ### Claim C1 -/

/-- C1 counterexample: `move(2^31, absolute, …)` is rejected with a
`ValueError`, but NOT before transport calls: a control-word read and a
control-word write are issued first (by the bit-4/5/6 multi-bit set),
so the trace is not empty. -/
theorem c1_counterexample :
    runVal (move 2147483648 CS.absolute false false 0) (fun _ => 0)
      = PyResult.valueError "Invalid target position." ∧
    runTrace (move 2147483648 CS.absolute false false 0) (fun _ => 0)
      = [Event.readHolding 1040, Event.writeRegister 1040 0] ∧
    runTrace (move 2147483648 CS.absolute false false 0) (fun _ => 0) ≠ [] := by
  have hrun : move 2147483648 CS.absolute false false 0 (fun _ => 0) =
      (.valueError "Invalid target position.",
       fun a => if a = 1040
         then [((4 : Nat), false), (5, false), (6, CS.absolute == CS.relative)].foldl
           (fun w p => pySetBit w p.1 p.2) ((fun _ => (0 : Int)) 1040)
         else (fun _ => (0 : Int)) a,
       [Event.readHolding 1040,
        Event.writeRegister 1040
          ([((4 : Nat), false), (5, false), (6, CS.absolute == CS.relative)].foldl
            (fun w p => pySetBit w p.1 p.2) ((fun _ => (0 : Int)) 1040))]) := by
    unfold move
    refine run_bind_ok _ _ _ () _ _ _ _ _ (set_control_word_bits_run _ _) ?_
    exact run_bind_err _ _ _ _ _ _
      (set_target_position_run_err 2147483648 (Or.inr (by decide)) _)
  have hv : ([((4 : Nat), false), (5, false), (6, CS.absolute == CS.relative)].foldl
      (fun w p => pySetBit w p.1 p.2) ((fun _ => (0 : Int)) 1040)) = (0 : Int) := by
    show ([((4 : Nat), false), (5, false), (6, CS.absolute == CS.relative)].foldl
      (fun w p => pySetBit w p.1 p.2) (((0 : Nat)) : Int)) = (0 : Int)
    rw [setBitsNat_natCast]
    simp only [setBitsNat, List.foldl_cons, List.foldl_nil, setBitNat, ldiff_eval]
    decide
  refine ⟨?_, ?_, ?_⟩
  · unfold runVal
    rw [hrun]
  · unfold runTrace
    rw [hrun, hv]
  · unfold runTrace
    rw [hrun, hv]
    exact List.cons_ne_nil _ _

/-- C1 amended: `move` with an out-of-range target is rejected with the
`ValueError` raised by `set_target_position` before any write to the
target-position register pair — registers 1042 and 1043 are unchanged and
the only write issued is the control-word write — but AFTER one
control-word read and one control-word write (the bit-4/5/6 multi-bit
read-modify-write), so the transport is not untouched. -/
theorem c1_move_out_of_range (position : Int) (cs : CS) (csi wait : Bool)
    (fuel : Nat) (r : Regs)
    (h : position < -2147483648 ∨ position > 2147483647) :
    runVal (move position cs csi wait fuel) r
      = PyResult.valueError "Invalid target position." ∧
    runTrace (move position cs csi wait fuel) r =
      [Event.readHolding 1040,
       Event.writeRegister 1040
         ([(4, false), (5, csi), (6, cs == CS.relative)].foldl
           (fun w p => pySetBit w p.1 p.2) (r 1040))] ∧
    writesOf (runTrace (move position cs csi wait fuel) r) =
      [Event.writeRegister 1040
        ([(4, false), (5, csi), (6, cs == CS.relative)].foldl
          (fun w p => pySetBit w p.1 p.2) (r 1040))] ∧
    runRegs (move position cs csi wait fuel) r 1042 = r 1042 ∧
    runRegs (move position cs csi wait fuel) r 1043 = r 1043 := by
  have hrun : move position cs csi wait fuel r =
      (.valueError "Invalid target position.",
       fun a => if a = 1040
         then [(4, false), (5, csi), (6, cs == CS.relative)].foldl
           (fun w p => pySetBit w p.1 p.2) (r 1040)
         else r a,
       [Event.readHolding 1040,
        Event.writeRegister 1040
          ([(4, false), (5, csi), (6, cs == CS.relative)].foldl
            (fun w p => pySetBit w p.1 p.2) (r 1040))]) := by
    unfold move
    refine run_bind_ok _ _ _ () _ _ _ _ _ (set_control_word_bits_run _ _) ?_
    exact run_bind_err _ _ _ _ _ _ (set_target_position_run_err position h _)
  refine ⟨?_, ?_, ?_, ?_, ?_⟩
  · unfold runVal
    rw [hrun]
  · unfold runTrace
    rw [hrun]
  · unfold runTrace
    rw [hrun]
    rfl
  · unfold runRegs
    rw [hrun]
    rfl
  · unfold runRegs
    rw [hrun]
    rfl

/-- Witness for C1 amended at `position = 3000000000` (above `2^31 - 1`). -/
theorem c1_move_out_of_range_witness :
    runVal (move 3000000000 CS.absolute true true 2) (fun _ => 0)
      = PyResult.valueError "Invalid target position." ∧
    runRegs (move 3000000000 CS.absolute true true 2) (fun _ => 0) 1042 = 0 :=
  ⟨(c1_move_out_of_range 3000000000 CS.absolute true true 2 (fun _ => 0)
      (Or.inr (by decide))).1,
   (c1_move_out_of_range 3000000000 CS.absolute true true 2 (fun _ => 0)
      (Or.inr (by decide))).2.2.2.1⟩

/-! ### Claim C3 -/

/-- C3 counterexample: a successful `move` with
`wait_for_target_reached = false` returns `None` (Python bare `return`),
not the boolean `true` the claim requires. -/
theorem c3_counterexample :
    runVal (move 5 CS.relative false false 0) (fun _ => 0)
      = PyResult.ok (none : Option Bool) ∧
    PyResult.ok (none : Option Bool) ≠ PyResult.ok (some true) :=
  ⟨rfl, by decide⟩

/-- C3 amended: `move` never returns a boolean — every path ends in a bare
`return`, so for every in-range target, with or without
`wait_for_target_reached`, and whether or not the poll loop observes
`target_reached` before the timeout, the returned value is `None`. -/
theorem c3_move_returns_none (position : Int) (cs : CS) (csi wait : Bool)
    (fuel : Nat) (r : Regs)
    (h1 : -2147483648 ≤ position) (h2 : position ≤ 2147483647) :
    runVal (move position cs csi wait fuel) r = PyResult.ok none := by
  unfold move
  rw [runVal_seq _ _ r () _ _ (set_control_word_bits_run _ r),
      runVal_seq _ _ _ () _ _ (set_target_position_run_ok position h1 h2 _),
      runVal_seq _ _ _ () _ _ (set_control_word_bit_run 4 true _)]
  cases wait
  · rfl
  · exact runVal_poll_tail fuel _

/-- Witness for C3 amended: a waiting `move` whose first poll reports
`target_reached` still returns `None`. -/
theorem c3_move_returns_none_witness :
    runVal (move 1000 CS.relative true true 3) (fun _ => 1024) = PyResult.ok none :=
  c3_move_returns_none 1000 CS.relative true true 3 (fun _ => 1024)
    (by decide) (by decide)

/-! ### Claim C4 -/

/-- C4 counterexample: polling with raw status word `32` (bit 5 set) does
NOT exit on the first poll (two reads occur with one unit of fuel), while
raw status word `1024` (bit 10 set, bit 5 clear) exits immediately: the
loop exit is governed by bit 10, not bit 5. -/
theorem c4_counterexample :
    runTrace (move_poll 1) (fun _ => 32)
      = [Event.readHolding 1001, Event.readHolding 1001] ∧
    ((32 : Int)).toNat.testBit 5 = true ∧
    runTrace (move_poll 1) (fun _ => 1024) = [Event.readHolding 1001] ∧
    ((1024 : Int)).toNat.testBit 5 = false ∧
    ((1024 : Int)).toNat.testBit 10 = true := by
  have h32mk : (STATUS_WORD.make (to_bits_list ((32 : Int)).toNat)).target_reached = false := by
    rw [make_target_reached _ (by decide)]
    decide
  have h1024mk : (STATUS_WORD.make (to_bits_list ((1024 : Int)).toNat)).target_reached
      = true := by
    rw [make_target_reached _ (by decide)]
    decide
  have ha := move_poll_succ_run 0 (fun _ => 32)
  rw [Nat.zero_add, h32mk, if_neg Bool.false_ne_true] at ha
  have hb := move_poll_succ_run 0 (fun _ => 1024)
  rw [Nat.zero_add, h1024mk, if_pos rfl] at hb
  refine ⟨?_, by decide, ?_, by decide, by decide⟩
  · rw [runTrace_eq, ha]
    rfl
  · rw [runTrace_eq, hb]

/-- C4 amended: every transport call of the wait loop is a read of the
16-bit status word at register 1001, and (with fuel to spare) the loop
exits with the reached outcome on the first poll — a one-read trace —
precisely when bit 10 (LSB-first; the bit decoded into the namedtuple
field `target_reached`) of the raw status word is true. -/
theorem c4_poll_reads_1001_and_exits_on_bit10 (fuel : Nat) (r : Regs)
    (h0 : 0 ≤ r 1001) (h1 : r 1001 < 65536) :
    (∀ e ∈ runTrace (move_poll fuel) r, e = Event.readHolding 1001) ∧
    (runTrace (move_poll (fuel + 1)) r = [Event.readHolding 1001]
      ↔ (r 1001).toNat.testBit 10 = true) := by
  have htn : (r 1001).toNat < 65536 := by omega
  have hmk : (STATUS_WORD.make (to_bits_list (r 1001).toNat)).target_reached
      = (r 1001).toNat.testBit 10 := make_target_reached _ htn
  refine ⟨fun e he => move_poll_reads fuel r e he, ?_⟩
  by_cases hbit : (r 1001).toNat.testBit 10 = true
  · have h := move_poll_succ_run fuel r
    rw [hmk, if_pos hbit] at h
    have ht : runTrace (move_poll (fuel + 1)) r = [Event.readHolding 1001] := by
      unfold runTrace
      rw [h]
    simp [ht, hbit]
  · have h := move_poll_succ_run fuel r
    rw [hmk, if_neg hbit] at h
    have ht : runTrace (move_poll (fuel + 1)) r
        = Event.readHolding 1001 :: (move_poll fuel r).2.2 := by
      unfold runTrace
      rw [h]
    rw [ht]
    constructor
    · intro hcontra
      injection hcontra with hhead htail
      have h3 := move_poll_trace_length fuel r
      rw [htail] at h3
      simp at h3
    · intro hb
      exact absurd hb hbit

/-- Witness for C4 amended at status word `1024` (bit 10 set). -/
theorem c4_poll_reads_1001_and_exits_on_bit10_witness :
    (runTrace (move_poll (1 + 1)) (fun _ => 1024) = [Event.readHolding 1001]
      ↔ ((1024 : Int)).toNat.testBit 10 = true) ∧
    ((1024 : Int)).toNat.testBit 10 = true :=
  ⟨(c4_poll_reads_1001_and_exits_on_bit10 1 (fun _ => 1024) (by decide) (by decide)).2,
   by decide⟩

/-! ### Claim C6 -/

/-- C6: every successful `move(position, cs, change_setpoint_immediately,
…)` issues exactly this write sequence, in order: one multi-bit
control-word read-modify-write whose written word clears bit 4, sets bit 5
to `change_setpoint_immediately` and bit 6 to `cs == relative` while
leaving every other bit at its read value; then one write of the encoded
32-bit target to the target-position register pair 1042–1043; then one
control-word read-modify-write whose written word sets bit 4 to true and
leaves every other bit unchanged.  The wait loop issues no writes. -/
theorem c6_move_write_sequence (position : Int) (cs : CS) (csi wait : Bool)
    (fuel : Nat) (r : Regs) (h0 : 0 ≤ r 1040)
    (h1 : -2147483648 ≤ position) (h2 : position ≤ 2147483647) :
    writesOf (runTrace (move position cs csi wait fuel) r) =
      [Event.writeRegister 1040
         ((setBitsNat [(4, false), (5, csi), (6, cs == CS.relative)] (r 1040).toNat : Nat) : Int),
       Event.writeRegisters 1042 [(int32_to_uint16 position).1, (int32_to_uint16 position).2],
       Event.writeRegister 1040
         ((setBitNat (setBitsNat [(4, false), (5, csi), (6, cs == CS.relative)] (r 1040).toNat)
             4 true : Nat) : Int)] ∧
    (setBitsNat [(4, false), (5, csi), (6, cs == CS.relative)] (r 1040).toNat).testBit 4
      = false ∧
    (setBitsNat [(4, false), (5, csi), (6, cs == CS.relative)] (r 1040).toNat).testBit 5
      = csi ∧
    (setBitsNat [(4, false), (5, csi), (6, cs == CS.relative)] (r 1040).toNat).testBit 6
      = (cs == CS.relative) ∧
    (∀ j, j ≠ 4 → j ≠ 5 → j ≠ 6 →
      (setBitsNat [(4, false), (5, csi), (6, cs == CS.relative)] (r 1040).toNat).testBit j
        = (r 1040).toNat.testBit j) ∧
    (setBitNat (setBitsNat [(4, false), (5, csi), (6, cs == CS.relative)] (r 1040).toNat)
        4 true).testBit 4 = true ∧
    (∀ j, j ≠ 4 →
      (setBitNat (setBitsNat [(4, false), (5, csi), (6, cs == CS.relative)] (r 1040).toNat)
          4 true).testBit j
        = (setBitsNat [(4, false), (5, csi), (6, cs == CS.relative)] (r 1040).toNat).testBit j) := by
  have hw : ((r 1040).toNat : Int) = r 1040 := Int.toNat_of_nonneg h0
  have hW1 : [(4, false), (5, csi), (6, cs == CS.relative)].foldl
      (fun w p => pySetBit w p.1 p.2) (r 1040)
      = ((setBitsNat [(4, false), (5, csi), (6, cs == CS.relative)] (r 1040).toNat : Nat) : Int) := by
    conv_lhs => rw [← hw]
    exact setBitsNat_natCast _ _
  have hnd : (List.map Prod.fst [((4 : Nat), false), (5, csi), (6, cs == CS.relative)]).Nodup := by
    simp
  refine ⟨?_,
    testBit_setBitsNat_mem _ _ 4 false hnd (by simp),
    testBit_setBitsNat_mem _ _ 5 csi hnd (by simp),
    testBit_setBitsNat_mem _ _ 6 (cs == CS.relative) hnd (by simp),
    fun j hj4 hj5 hj6 => testBit_setBitsNat_not_mem _ _ j (by simp [hj4, hj5, hj6]),
    by rw [testBit_setBitNat, if_pos rfl],
    fun j hj => by rw [testBit_setBitNat, if_neg hj]⟩
  unfold move
  rw [runTrace_seq _ _ r () _ _ (set_control_word_bits_run _ r), writesOf_append]
  rw [runTrace_seq _ _ _ () _ _ (set_target_position_run_ok position h1 h2 _), writesOf_append]
  rw [runTrace_seq _ _ _ () _ _ (set_control_word_bit_run 4 true _), writesOf_append]
  rw [hW1]
  cases wait
  · rw [if_neg Bool.false_ne_true, runTrace_pure]
    norm_num [writesOf_cons_read, writesOf_cons_writeReg, writesOf_cons_writeRegs,
      writesOf_nil, pySetBit_natCast]
  · simp only [reduceIte]
    rw [writesOf_poll_tail fuel _]
    norm_num [writesOf_cons_read, writesOf_cons_writeReg, writesOf_cons_writeRegs,
      writesOf_nil, pySetBit_natCast]

/-- Witness for C6: a waiting relative move of 1000 steps against control
and status words `1024`; the two control words and the encoded target
evaluate concretely. -/
theorem c6_move_write_sequence_witness :
    writesOf (runTrace (move 1000 CS.relative false true 1) (fun _ => 1024)) =
      [Event.writeRegister 1040
         ((setBitsNat [(4, false), (5, false), (6, CS.relative == CS.relative)]
             ((1024 : Int)).toNat : Nat) : Int),
       Event.writeRegisters 1042 [(int32_to_uint16 1000).1, (int32_to_uint16 1000).2],
       Event.writeRegister 1040
         ((setBitNat (setBitsNat [(4, false), (5, false), (6, CS.relative == CS.relative)]
             ((1024 : Int)).toNat) 4 true : Nat) : Int)] ∧
    setBitsNat [(4, false), (5, false), (6, CS.relative == CS.relative)]
      ((1024 : Int)).toNat = 1088 ∧
    setBitNat (setBitsNat [(4, false), (5, false), (6, CS.relative == CS.relative)]
      ((1024 : Int)).toNat) 4 true = 1104 ∧
    int32_to_uint16 1000 = (1000, 0) :=
  ⟨(c6_move_write_sequence 1000 CS.relative false true 1 (fun _ => 1024)
      (by decide) (by decide) (by decide)).1,
   by simp only [setBitsNat, List.foldl_cons, List.foldl_nil, setBitNat, ldiff_eval]; decide,
   by simp only [setBitsNat, List.foldl_cons, List.foldl_nil, setBitNat, ldiff_eval]; decide,
   by decide⟩

end CsdMt94
